import Mathlib

/-!
# The `azuread_users` data source: `dataSourceUsersRead`

A shallow embedding of `azuread/data_users.go` and the properties of its read
function.  Go strings are Lean strings, Go pointers are `Option`s, byte slices
are lists of naturals below 256, 32-bit words are naturals reduced modulo
`2 ^ 32`.  The directory client and the resource data are passed explicitly; a
run returns the directory calls it made, the resource data it leaves behind and
how it ended (returned `nil`, returned an error, or hit a nil dereference).
-/

namespace Azuread

/-! ## `crypto/sha1` and `encoding/base64` (Go standard library) -/

/-- Left rotation of a 32-bit word by `n` places. -/
def rotl32 (x n : Nat) : Nat :=
  ((x <<< n) ||| (x >>> (32 - n))) % 2 ^ 32

/-- The bytes of a string, as `[]byte(s)` yields them. -/
def stringBytes (s : String) : List Nat :=
  s.toUTF8.data.toList.map UInt8.toNat

/-- Big-endian bytes of `x`, `n` of them. -/
def beBytes : Nat → Nat → List Nat
  | 0, _ => []
  | n + 1, x => (x / 256 ^ n) % 256 :: beBytes n x

/-- SHA-1 padding: a `0x80` byte, zeroes up to 56 modulo 64, then the bit length
on eight bytes. -/
def sha1Pad (msg : List Nat) : List Nat :=
  let len := msg.length
  let zeros := (64 - (len + 9) % 64) % 64
  msg ++ 0x80 :: List.replicate zeros 0 ++ beBytes 8 (8 * len)

/-- The first `n` big-endian 32-bit words of a byte list. -/
def beWords : Nat → List Nat → List Nat
  | 0, _ => []
  | n + 1, bs =>
    (bs.getD 0 0 * 2 ^ 24 + bs.getD 1 0 * 2 ^ 16 + bs.getD 2 0 * 2 ^ 8 + bs.getD 3 0)
      :: beWords n (bs.drop 4)

/-- Message schedule: `n` more words, each the rotated xor of four earlier ones. -/
def sha1Schedule : Nat → List Nat → List Nat
  | 0, w => w
  | n + 1, w =>
    let i := w.length
    sha1Schedule n
      (w ++ [rotl32 (w.getD (i - 3) 0 ^^^ w.getD (i - 8) 0 ^^^ w.getD (i - 14) 0
        ^^^ w.getD (i - 16) 0) 1])

/-- The five chaining words of SHA-1. -/
structure Sha1State where
  a : Nat
  b : Nat
  c : Nat
  d : Nat
  e : Nat
deriving DecidableEq, Repr

/-- Initial chaining value. -/
def sha1Init : Sha1State :=
  { a := 0x67452301, b := 0xEFCDAB89, c := 0x98BADCFE, d := 0x10325476, e := 0xC3D2E1F0 }

/-- Round function and constant of round `i`. -/
def sha1FK (i b c d : Nat) : Nat × Nat :=
  if i < 20 then ((b &&& c) ||| ((b ^^^ 0xFFFFFFFF) &&& d), 0x5A827999)
  else if i < 40 then (b ^^^ c ^^^ d, 0x6ED9EBA1)
  else if i < 60 then ((b &&& c) ||| (b &&& d) ||| (c &&& d), 0x8F1BBCDC)
  else (b ^^^ c ^^^ d, 0xCA62C1D6)

/-- The rounds of one block, from round `i` on, over the remaining schedule words. -/
def sha1Rounds : Nat → List Nat → Sha1State → Sha1State
  | _, [], s => s
  | i, w :: ws, s =>
    let fk := sha1FK i s.b s.c s.d
    let t := (rotl32 s.a 5 + fk.1 + s.e + fk.2 + w) % 2 ^ 32
    sha1Rounds (i + 1) ws { a := t, b := s.a, c := rotl32 s.b 30, d := s.c, e := s.d }

/-- Compression of one 64-byte block into the chaining value. -/
def sha1Block (h : Sha1State) (block : List Nat) : Sha1State :=
  let s := sha1Rounds 0 (sha1Schedule 64 (beWords 16 block)) h
  { a := (h.a + s.a) % 2 ^ 32, b := (h.b + s.b) % 2 ^ 32, c := (h.c + s.c) % 2 ^ 32,
    d := (h.d + s.d) % 2 ^ 32, e := (h.e + s.e) % 2 ^ 32 }

/-- Compression of the first `n` blocks of a padded message. -/
def sha1Blocks : Nat → List Nat → Sha1State → Sha1State
  | 0, _, h => h
  | n + 1, bs, h => sha1Blocks n (bs.drop 64) (sha1Block h (bs.take 64))

/-- The 20-byte digest `sha1.New()`, `h.Write(msg)`, `h.Sum(nil)` computes. -/
def sha1 (msg : List Nat) : List Nat :=
  let padded := sha1Pad msg
  let h := sha1Blocks (padded.length / 64) padded sha1Init
  beBytes 4 h.a ++ beBytes 4 h.b ++ beBytes 4 h.c ++ beBytes 4 h.d ++ beBytes 4 h.e

/-- The alphabet of `base64.URLEncoding`. -/
def encodeURL : List Char :=
  "ABCDEFGHIJKLMNOPQRSTUVWXYZabcdefghijklmnopqrstuvwxyz0123456789-_".toList

/-- The character of a 6-bit value. -/
def base64Char (i : Nat) : Char :=
  encodeURL.getD i 'A'

/-- Characters of `base64.URLEncoding.EncodeToString`: three bytes give four
characters, a tail of one or two bytes is padded with `=`. -/
def base64URLChars : List Nat → List Char
  | [] => []
  | [a] => [base64Char (a / 4), base64Char (a % 4 * 16), '=', '=']
  | [a, b] =>
    [base64Char (a / 4), base64Char (a % 4 * 16 + b / 16), base64Char (b % 16 * 4), '=']
  | a :: b :: c :: rest =>
    base64Char (a / 4) :: base64Char (a % 4 * 16 + b / 16)
      :: base64Char (b % 16 * 4 + c / 64) :: base64Char (c % 64) :: base64URLChars rest

/-- Model of `base64.URLEncoding.EncodeToString`. -/
def base64URLEncodeToString (src : List Nat) : String :=
  String.mk (base64URLChars src)

/-! ## Data model -/

/-- The fields of `graphrbac.User` the data source reads.  Pointer fields are
options, `AdditionalProperties` is the attribute bag. -/
structure User where
  ObjectID : Option String
  UserPrincipalName : Option String
  MailNickname : Option String
  AccountEnabled : Option Bool
  DisplayName : Option String
  ImmutableID : Option String
  Mail : Option String
  UsageLocation : Option String
  AdditionalProperties : List (String × String)
deriving DecidableEq, Repr

/-- One element of the `users` output: the map built at lines 194-204, one
field for each key. -/
structure UserMap where
  account_enabled : Option Bool
  display_name : Option String
  immutable_id : Option String
  mail : Option String
  mail_nickname : Option String
  object_id : Option String
  onpremises_sam_account_name : Option String
  onpremises_user_principal_name : Option String
  usage_location : Option String
  user_principal_name : Option String
deriving DecidableEq, Repr

/-- The three kinds of identifier list. -/
inductive IdKind where
  | userPrincipalName
  | objectId
  | mailNickname
deriving DecidableEq, Repr

/-- What `client.Get` hands back, a `graphrbac.User` by value and an error:
`found u` when `err == nil`, otherwise `failed notFound err`, where `notFound`
is the value of `ar.ResponseWasNotFound(u.Response)` and `err` the error text.
The record being a value, its response is always there to read. -/
inductive GetResult where
  | found (u : User)
  | failed (notFound : Bool) (err : String)
deriving DecidableEq, Repr

/-- What `graph.UserGetByObjectId` and `graph.UserGetByMailNickname` hand back,
a `*graphrbac.User` and an error: `found u` when `err == nil`, otherwise
`failed response err`.  With an error the pointer may be nil: `response` is
`none` then, and `some notFound` when the pointer is set, `notFound` being the
value of `ar.ResponseWasNotFound(u.Response)`.  The two helpers and
`ar.ResponseWasNotFound` live outside `data_users.go`, so every such answer is
allowed for. -/
inductive Lookup where
  | found (u : User)
  | failed (response : Option Bool) (err : String)
deriving DecidableEq, Repr

/-- The answer of `client.Get` seen as a lookup: its response is never missing. -/
def GetResult.toLookup : GetResult → Lookup
  | .found u => .found u
  | .failed notFound err => .failed (some notFound) err

/-- The directory client: `client.Get`, `graph.UserGetByObjectId` and
`graph.UserGetByMailNickname`, as functions of the identifier. -/
structure UsersClient where
  Get : String → GetResult
  UserGetByObjectId : String → Lookup
  UserGetByMailNickname : String → Lookup

/-- The errors `dataSourceUsersRead` returns. -/
inductive ReadError where
  /-- Lines 142, 154, 166: the message quotes the identifier and the cause. -/
  | lookupFailed (kind : IdKind) (identifier : String) (cause : String)
  /-- Line 173: "Unexpected number of users returned". -/
  | unexpectedCount (got expected : Nat)
  /-- Line 177: "No users were returned". -/
  | noUsers
  /-- Line 186: "User with nil ObjectId or UPN was found". -/
  | nilObjectIdOrUpn (u : User)
deriving DecidableEq, Repr

/-- A write to the resource data. -/
inductive SinkWrite where
  | SetId (v : String)
  | SetObjectIds (v : List String)
  | SetUserPrincipalNames (v : List String)
  | SetMailNicknames (v : List String)
  | SetUsers (v : List UserMap)
deriving DecidableEq, Repr

/-- The `schema.ResourceData` of the data source: the values `d.Get` reads, the
identifier, and the writes made so far. -/
structure ResourceData where
  object_ids : List String
  user_principal_names : List String
  mail_nicknames : List String
  ignore_missing : Bool
  users : List UserMap
  Id : String
  writes : List SinkWrite
deriving DecidableEq, Repr

/-- Model of `d.SetId(v)`. -/
def ResourceData.SetId (d : ResourceData) (v : String) : ResourceData :=
  { d with Id := v, writes := d.writes ++ [.SetId v] }

/-- Model of `d.Set("object_ids", v)`. -/
def ResourceData.SetObjectIds (d : ResourceData) (v : List String) : ResourceData :=
  { d with object_ids := v, writes := d.writes ++ [.SetObjectIds v] }

/-- Model of `d.Set("user_principal_names", v)`. -/
def ResourceData.SetUserPrincipalNames (d : ResourceData) (v : List String) : ResourceData :=
  { d with user_principal_names := v, writes := d.writes ++ [.SetUserPrincipalNames v] }

/-- Model of `d.Set("mail_nicknames", v)`. -/
def ResourceData.SetMailNicknames (d : ResourceData) (v : List String) : ResourceData :=
  { d with mail_nicknames := v, writes := d.writes ++ [.SetMailNicknames v] }

/-- Model of `d.Set("users", v)`. -/
def ResourceData.SetUsers (d : ResourceData) (v : List UserMap) : ResourceData :=
  { d with users := v, writes := d.writes ++ [.SetUsers v] }

/-! ## `dataSourceUsersRead` -/

/-- How a lookup loop ends: `done users` when the range is exhausted or the loop
breaks, `failed e` when it returns an error, `nilDereference users` when
`u.Response` is read through a nil pointer, `users` being the records appended
until then. -/
inductive LoopExit where
  | done (users : List User)
  | failed (e : ReadError)
  | nilDereference (users : List User)
deriving DecidableEq, Repr

/-- A lookup loop: the directory calls made, in order, and how it ended. -/
structure LoopResult where
  calls : List (IdKind × String)
  exit : LoopExit
deriving DecidableEq, Repr

/-- Lines 138-143, 150-155 and 162-167, the body of `if err != nil`.  The test
`ignoreMissing && ar.ResponseWasNotFound(u.Response)` reads `u.Response` only
when `ignoreMissing` is set; that read fails when the helper handed back a nil
pointer.  A not-found response breaks the loop, anything else returns the
error. -/
def lookupError (ignoreMissing : Bool) (kind : IdKind) (v : String)
    (response : Option Bool) (err : String) (users : List User) : LoopExit :=
  if ignoreMissing then
    match response with
    | none => .nilDereference users
    | some notFound =>
      if notFound then .done users else .failed (.lookupFailed kind v err)
  else .failed (.lookupFailed kind v err)

/-- The `for _, v := range ...` loops of lines 136-145, 148-157 and 160-169,
which differ in the directory function called and in the error message only.
`users` and `calls` are the records appended and the calls made so far. -/
def lookupLoop (ignoreMissing : Bool) (kind : IdKind) (get : String → Lookup) :
    List String → List User → List (IdKind × String) → LoopResult
  | [], users, calls => { calls := calls, exit := .done users }
  | v :: rest, users, calls =>
    match get v with
    | .failed response err =>
      { calls := calls ++ [(kind, v)],
        exit := lookupError ignoreMissing kind v response err users }
    | .found u => lookupLoop ignoreMissing kind get rest (users ++ [u]) (calls ++ [(kind, v)])

/-- Lines 130-170, the lookup phase: `expectedCount`, the calls, and how the
loop ended. -/
structure LookupPhase where
  expectedCount : Nat
  calls : List (IdKind × String)
  exit : LoopExit
deriving DecidableEq, Repr

/-- Lines 130-170: the `if` / `else if` chain over the three lists. -/
def lookupUsers (client : UsersClient) (d : ResourceData) : LookupPhase :=
  let ignoreMissing := d.ignore_missing
  if 0 < d.user_principal_names.length then
    let r := lookupLoop ignoreMissing .userPrincipalName (fun v => (client.Get v).toLookup)
      d.user_principal_names [] []
    { expectedCount := d.user_principal_names.length, calls := r.calls, exit := r.exit }
  else if 0 < d.object_ids.length then
    let r := lookupLoop ignoreMissing .objectId client.UserGetByObjectId d.object_ids [] []
    { expectedCount := d.object_ids.length, calls := r.calls, exit := r.exit }
  else if 0 < d.mail_nicknames.length then
    let r := lookupLoop ignoreMissing .mailNickname client.UserGetByMailNickname
      d.mail_nicknames [] []
    { expectedCount := d.mail_nicknames.length, calls := r.calls, exit := r.exit }
  else
    { expectedCount := 0, calls := [], exit := .done [] }

/-- Lines 194-205: the map built from one record. -/
def userMap (u : User) : UserMap :=
  { account_enabled := u.AccountEnabled
    display_name := u.DisplayName
    immutable_id := u.ImmutableID
    mail := u.Mail
    mail_nickname := u.MailNickname
    object_id := u.ObjectID
    onpremises_sam_account_name := u.AdditionalProperties.lookup "onPremisesSamAccountName"
    onpremises_user_principal_name := u.AdditionalProperties.lookup "onPremisesUserPrincipalName"
    usage_location := u.UsageLocation
    user_principal_name := u.UserPrincipalName }

/-- The four slices the projection loop fills (lines 180-183). -/
structure Projection where
  oids : List String
  upns : List String
  mailNicknames : List String
  userList : List UserMap
deriving DecidableEq, Repr

/-- How the projection loop ends: with the four slices, with the error of line
186, or in the run-time failure of dereferencing a nil pointer. -/
inductive ProjectExit where
  | done (p : Projection)
  | failed (e : ReadError)
  | nilDereference
deriving DecidableEq, Repr

/-- Lines 184-207: the projection loop.  The three dereferences of lines
190-192 are taken in order. -/
def projectLoop : List User → Projection → ProjectExit
  | [], p => .done p
  | u :: rest, p =>
    if u.ObjectID.isNone || u.UserPrincipalName.isNone then
      .failed (.nilObjectIdOrUpn u)
    else if u.ObjectID.isSome || u.UserPrincipalName.isSome then
      match u.ObjectID with
      | none => .nilDereference
      | some oid =>
        match u.UserPrincipalName with
        | none => .nilDereference
        | some upn =>
          match u.MailNickname with
          | none => .nilDereference
          | some nick =>
            projectLoop rest
              { oids := p.oids ++ [oid], upns := p.upns ++ [upn],
                mailNicknames := p.mailNicknames ++ [nick],
                userList := p.userList ++ [userMap u] }
    else projectLoop rest p

/-- Lines 209-214: the identifier, `"users#"` followed by the URL-safe base64
text of the SHA-1 digest of the names joined with `-`.  `h.Write` of a SHA-1
hash never returns an error, so line 211 is not reached. -/
def usersId (upns : List String) : String :=
  "users#" ++ base64URLEncodeToString (sha1 (stringBytes (String.intercalate "-" upns)))

/-- How a read ends: `ok` for `return nil`, `error e` for a returned error,
`nilDereference` for the run-time failure of a lookup loop or of the projection
loop. -/
inductive Outcome where
  | ok
  | error (e : ReadError)
  | nilDereference
deriving DecidableEq, Repr

/-- A run of `dataSourceUsersRead`: the directory calls made, the resource data
at exit, and the outcome. -/
structure ReadResult where
  calls : List (IdKind × String)
  data : ResourceData
  outcome : Outcome
deriving DecidableEq, Repr

/-- Model of `dataSourceUsersRead` (lines 126-221). -/
def dataSourceUsersRead (client : UsersClient) (d : ResourceData) : ReadResult :=
  let ignoreMissing := d.ignore_missing
  let phase := lookupUsers client d
  match phase.exit with
  | .failed e => { calls := phase.calls, data := d, outcome := .error e }
  | .nilDereference _ => { calls := phase.calls, data := d, outcome := .nilDereference }
  | .done users =>
    if !ignoreMissing && users.length != phase.expectedCount then
      { calls := phase.calls, data := d,
        outcome := .error (.unexpectedCount users.length phase.expectedCount) }
    else if ignoreMissing && users.length == 0 then
      { calls := phase.calls, data := d, outcome := .error .noUsers }
    else
      match projectLoop users { oids := [], upns := [], mailNicknames := [], userList := [] } with
      | .failed e => { calls := phase.calls, data := d, outcome := .error e }
      | .nilDereference => { calls := phase.calls, data := d, outcome := .nilDereference }
      | .done p =>
        { calls := phase.calls
          data := ((((d.SetId (usersId p.upns)).SetObjectIds p.oids).SetUserPrincipalNames
            p.upns).SetMailNicknames p.mailNicknames).SetUsers p.userList
          outcome := .ok }

/-! ## Vocabulary of the statements -/

/-- The directory function the read uses for each kind of identifier. -/
def UsersClient.lookup (client : UsersClient) : IdKind → String → Lookup
  | .userPrincipalName => fun v => (client.Get v).toLookup
  | .objectId => client.UserGetByObjectId
  | .mailNickname => client.UserGetByMailNickname

/-- The list of kind `kind` in `d` is `ids`, and the lists the chain of lines
134, 146, 158 tests before it are empty. -/
def ResourceData.Selects (d : ResourceData) (kind : IdKind) (ids : List String) : Prop :=
  match kind with
  | .userPrincipalName => d.user_principal_names = ids
  | .objectId => d.user_principal_names = [] ∧ d.object_ids = ids
  | .mailNickname => d.user_principal_names = [] ∧ d.object_ids = [] ∧ d.mail_nicknames = ids

/-- A request carrying one identifier list and nothing else. -/
def request (kind : IdKind) (ids : List String) (ignoreMissing : Bool) : ResourceData :=
  { object_ids := if kind = .objectId then ids else []
    user_principal_names := if kind = .userPrincipalName then ids else []
    mail_nicknames := if kind = .mailNickname then ids else []
    ignore_missing := ignoreMissing
    users := []
    Id := ""
    writes := [] }

/-- The record has its object id, its principal name and its mail nickname. -/
def User.Complete (u : User) : Prop :=
  u.ObjectID.isSome = true ∧ u.UserPrincipalName.isSome = true ∧ u.MailNickname.isSome = true

instance (u : User) : Decidable u.Complete := by
  unfold User.Complete
  infer_instance

/-- The resource data a read leaves once it has projected the records `users`:
the five writes of lines 214-218, in that order. -/
def ResourceData.written (d : ResourceData) (users : List User) : ResourceData :=
  ((((d.SetId (usersId (users.filterMap (fun u => u.UserPrincipalName)))).SetObjectIds
    (users.filterMap (fun u => u.ObjectID))).SetUserPrincipalNames
    (users.filterMap (fun u => u.UserPrincipalName))).SetMailNicknames
    (users.filterMap (fun u => u.MailNickname))).SetUsers (users.map userMap)

/-- The field of a record that an identifier of the given kind names. -/
def User.key (u : User) : IdKind → Option String
  | .userPrincipalName => u.UserPrincipalName
  | .objectId => u.ObjectID
  | .mailNickname => u.MailNickname

/-- The list of the given kind held by the resource data. -/
def ResourceData.list (d : ResourceData) : IdKind → List String
  | .userPrincipalName => d.user_principal_names
  | .objectId => d.object_ids
  | .mailNickname => d.mail_nicknames

/-! ## Sample directory -/

/-- A record with its three keys set and no other attribute. -/
def sampleUser (oid upn nick : String) : User :=
  { ObjectID := some oid, UserPrincipalName := some upn, MailNickname := some nick,
    AccountEnabled := some true, DisplayName := none, ImmutableID := none, Mail := none,
    UsageLocation := none, AdditionalProperties := [] }

/-- First sample record. -/
def alice : User := sampleUser "00000000-0000-0000-0000-000000000001" "a@x.com" "alice"

/-- Second sample record. -/
def bob : User := sampleUser "00000000-0000-0000-0000-000000000002" "b@x.com" "bob"

/-- A record the directory returns without an object id. -/
def ghost : User :=
  { sampleUser "" "ghost@x.com" "ghost" with ObjectID := none }

/-- A record the directory returns without a mail nickname. -/
def guest : User :=
  { sampleUser "00000000-0000-0000-0000-000000000004" "guest@x.com" "" with
    MailNickname := none }

/-- A record with the mail nickname of `alice` and keys of its own otherwise. -/
def carol : User := sampleUser "00000000-0000-0000-0000-000000000003" "c@x.com" "alice"

/-- A directory of two records, each found under its own three keys; every
other identifier is answered with not-found. -/
def sampleClient : UsersClient :=
  { Get := fun v =>
      if v = "a@x.com" then .found alice
      else if v = "b@x.com" then .found bob
      else .failed true "404"
    UserGetByObjectId := fun v =>
      if v = "00000000-0000-0000-0000-000000000001" then .found alice
      else if v = "00000000-0000-0000-0000-000000000002" then .found bob
      else .failed (some true) "404"
    UserGetByMailNickname := fun v =>
      if v = "alice" then .found alice
      else if v = "bob" then .found bob
      else .failed (some true) "404" }

/-- A directory whose records may lack fields: `ghost` has no object id and
`guest` no mail nickname. -/
def sparseClient : UsersClient :=
  { Get := fun v =>
      if v = "a@x.com" then .found alice
      else if v = "ghost@x.com" then .found ghost
      else if v = "guest@x.com" then .found guest
      else .failed true "404"
    UserGetByObjectId := fun _ => .failed (some true) "404"
    UserGetByMailNickname := fun _ => .failed (some true) "404" }

/-- A directory in which principal names are matched without regard to case:
`A@x.com` and `a@x.com` name the same record. -/
def caselessClient : UsersClient :=
  { Get := fun v =>
      if v = "a@x.com" then .found alice
      else if v = "A@x.com" then .found alice
      else .failed true "404"
    UserGetByObjectId := fun _ => .failed (some true) "404"
    UserGetByMailNickname := fun _ => .failed (some true) "404" }

/-- A directory in which two records share a mail nickname; a lookup by that
nickname returns the first of them. -/
def sharedNicknameClient : UsersClient :=
  { Get := fun _ => .failed true "404"
    UserGetByObjectId := fun v =>
      if v = "00000000-0000-0000-0000-000000000001" then .found alice
      else if v = "00000000-0000-0000-0000-000000000003" then .found carol
      else .failed (some true) "404"
    UserGetByMailNickname := fun v =>
      if v = "alice" then .found alice
      else .failed (some true) "404" }

/-- A directory whose helpers hand back no record with their error, as a helper
that lists by filter and finds nothing does. -/
def listingClient : UsersClient :=
  { Get := fun v =>
      if v = "a@x.com" then .found alice
      else .failed true "404"
    UserGetByObjectId := fun v =>
      if v = "00000000-0000-0000-0000-000000000001" then .found alice
      else if v = "00000000-0000-0000-0000-000000000002" then .found bob
      else .failed none "Found no AD Users matching"
    UserGetByMailNickname := fun v =>
      if v = "alice" then .found alice
      else if v = "bob" then .found bob
      else .failed none "Found no AD Users matching" }

/-! ## The encoding of the identifier -/

theorem base64Char_fin_injective :
    ∀ i j : Fin 64, base64Char i.val = base64Char j.val → i = j := by
  decide!

theorem base64Char_fin_ne_pad : ∀ i : Fin 64, base64Char i.val ≠ '=' := by
  decide!

theorem base64Char_inj (i j : Nat) (hi : i < 64) (hj : j < 64)
    (h : base64Char i = base64Char j) : i = j := by
  have := base64Char_fin_injective ⟨i, hi⟩ ⟨j, hj⟩ h
  exact congrArg Fin.val this

theorem base64Char_ne_pad (i : Nat) (hi : i < 64) : base64Char i ≠ '=' :=
  base64Char_fin_ne_pad ⟨i, hi⟩

theorem pad_ne_base64Char (i : Nat) (hi : i < 64) : '=' ≠ base64Char i :=
  fun h => base64Char_ne_pad i hi h.symm

theorem base64URLChars_injective :
    ∀ l1 l2 : List Nat, (∀ b ∈ l1, b < 256) → (∀ b ∈ l2, b < 256) →
      base64URLChars l1 = base64URLChars l2 → l1 = l2 := by
  intro l1
  induction l1 using base64URLChars.induct with
  | case1 =>
    intro l2 _ _ h
    rcases l2 with _ | ⟨a2, _ | ⟨b2, _ | ⟨c2, rest2⟩⟩⟩ <;> simp [base64URLChars] at h ⊢
  | case2 a =>
    intro l2 h1 h2 h
    have ha : a < 256 := h1 a (by simp)
    rcases l2 with _ | ⟨a2, _ | ⟨b2, _ | ⟨c2, rest2⟩⟩⟩
    · simp [base64URLChars] at h
    · have ha2 : a2 < 256 := h2 a2 (by simp)
      simp only [base64URLChars, List.cons.injEq, and_true] at h
      have e1 := base64Char_inj _ _ (by omega) (by omega) h.1
      have e2 := base64Char_inj _ _ (by omega) (by omega) h.2
      have : a = a2 := by omega
      simp [this]
    · have hb2 : b2 < 256 := h2 b2 (by simp)
      simp only [base64URLChars, List.cons.injEq, and_true] at h
      exact absurd h.2.2 (pad_ne_base64Char _ (by omega))
    · have hb2 : b2 < 256 := h2 b2 (by simp)
      have hc2 : c2 < 256 := h2 c2 (by simp)
      simp only [base64URLChars, List.cons.injEq] at h
      exact absurd h.2.2.1 (pad_ne_base64Char _ (by omega))
  | case3 a b =>
    intro l2 h1 h2 h
    have ha : a < 256 := h1 a (by simp)
    have hb : b < 256 := h1 b (by simp)
    rcases l2 with _ | ⟨a2, _ | ⟨b2, _ | ⟨c2, rest2⟩⟩⟩
    · simp [base64URLChars] at h
    · simp only [base64URLChars, List.cons.injEq, and_true] at h
      exact absurd h.2.2 (base64Char_ne_pad _ (by omega))
    · have ha2 : a2 < 256 := h2 a2 (by simp)
      have hb2 : b2 < 256 := h2 b2 (by simp)
      simp only [base64URLChars, List.cons.injEq, and_true] at h
      have e1 := base64Char_inj _ _ (by omega) (by omega) h.1
      have e2 := base64Char_inj _ _ (by omega) (by omega) h.2.1
      have e3 := base64Char_inj _ _ (by omega) (by omega) h.2.2
      have : a = a2 := by omega
      have : b = b2 := by omega
      simp [*]
    · have hc2 : c2 < 256 := h2 c2 (by simp)
      simp only [base64URLChars, List.cons.injEq] at h
      exact absurd h.2.2.2.1 (pad_ne_base64Char _ (by omega))
  | case4 a b c rest ih =>
    intro l2 h1 h2 h
    have ha : a < 256 := h1 a (by simp)
    have hb : b < 256 := h1 b (by simp)
    have hc : c < 256 := h1 c (by simp)
    rcases l2 with _ | ⟨a2, _ | ⟨b2, _ | ⟨c2, rest2⟩⟩⟩
    · simp [base64URLChars] at h
    · simp only [base64URLChars, List.cons.injEq] at h
      exact absurd h.2.2.1 (base64Char_ne_pad _ (by omega))
    · simp only [base64URLChars, List.cons.injEq] at h
      exact absurd h.2.2.2.1 (base64Char_ne_pad _ (by omega))
    · have ha2 : a2 < 256 := h2 a2 (by simp)
      have hb2 : b2 < 256 := h2 b2 (by simp)
      have hc2 : c2 < 256 := h2 c2 (by simp)
      simp only [base64URLChars, List.cons.injEq] at h
      have e1 := base64Char_inj _ _ (by omega) (by omega) h.1
      have e2 := base64Char_inj _ _ (by omega) (by omega) h.2.1
      have e3 := base64Char_inj _ _ (by omega) (by omega) h.2.2.1
      have e4 := base64Char_inj _ _ (by omega) (by omega) h.2.2.2.1
      have hrest := ih rest2 (fun x hx => h1 x (by simp [hx]))
        (fun x hx => h2 x (by simp [hx])) h.2.2.2.2
      have : a = a2 := by omega
      have : b = b2 := by omega
      have : c = c2 := by omega
      simp [*]

/-- The bytes `beBytes` yields are below 256. -/
theorem beBytes_lt : ∀ (n x : Nat), ∀ b ∈ beBytes n x, b < 256 := by
  intro n
  induction n with
  | zero => intro x b hb; simp [beBytes] at hb
  | succ n ih =>
    intro x b hb
    simp only [beBytes, List.mem_cons] at hb
    rcases hb with rfl | hb
    · exact Nat.mod_lt _ (by decide)
    · exact ih x b hb

/-- A digest is a list of bytes. -/
theorem sha1_lt (msg : List Nat) : ∀ b ∈ sha1 msg, b < 256 := by
  intro b hb
  simp only [sha1, List.mem_append] at hb
  rcases hb with (((hb | hb) | hb) | hb) | hb <;> exact beBytes_lt _ _ b hb

/-- Two identifiers are equal exactly when the digests they encode are. -/
theorem usersId_eq_iff (upns1 upns2 : List String) :
    usersId upns1 = usersId upns2 ↔
      sha1 (stringBytes (String.intercalate "-" upns1)) =
        sha1 (stringBytes (String.intercalate "-" upns2)) := by
  constructor
  · intro h
    have hdata := congrArg String.data h
    simp only [usersId, base64URLEncodeToString, String.data_append] at hdata
    have hchars := List.append_cancel_left hdata
    exact base64URLChars_injective _ _ (sha1_lt _) (sha1_lt _) hchars
  · intro h
    simp only [usersId, h]

/-! ## The lookup loop -/

theorem lookupLoop_found (ig : Bool) (kind : IdKind) (get : String → Lookup) :
    ∀ (ids : List String) (us acc : List User) (calls : List (IdKind × String)),
      ids.map get = us.map Lookup.found →
      lookupLoop ig kind get ids acc calls =
        { calls := calls ++ ids.map (Prod.mk kind), exit := .done (acc ++ us) } := by
  intro ids
  induction ids with
  | nil =>
    intro us acc calls h
    cases us with
    | nil => simp [lookupLoop]
    | cons u us => simp at h
  | cons v rest ih =>
    intro us acc calls h
    cases us with
    | nil => simp at h
    | cons u us =>
      simp only [List.map_cons, List.cons.injEq] at h
      obtain ⟨hv, hrest⟩ := h
      simp only [lookupLoop, hv]
      rw [ih us (acc ++ [u]) (calls ++ [(kind, v)]) hrest]
      simp

theorem lookupLoop_failed (ig : Bool) (kind : IdKind) (get : String → Lookup)
    (v : String) (post : List String) (r : Option Bool) (c : String)
    (hv : get v = .failed r c) :
    ∀ (pre : List String) (us acc : List User) (calls : List (IdKind × String)),
      pre.map get = us.map Lookup.found →
      lookupLoop ig kind get (pre ++ v :: post) acc calls =
        { calls := calls ++ (pre ++ [v]).map (Prod.mk kind),
          exit := lookupError ig kind v r c (acc ++ us) } := by
  intro pre
  induction pre with
  | nil =>
    intro us acc calls h
    cases us with
    | nil => simp [lookupLoop, hv]
    | cons u us => simp at h
  | cons w rest ih =>
    intro us acc calls h
    cases us with
    | nil => simp at h
    | cons u us =>
      simp only [List.map_cons, List.cons.injEq] at h
      obtain ⟨hw, hrest⟩ := h
      have hstep : lookupLoop ig kind get ((w :: rest) ++ v :: post) acc calls =
          lookupLoop ig kind get (rest ++ v :: post) (acc ++ [u]) (calls ++ [(kind, w)]) := by
        simp only [List.cons_append, lookupLoop, hw]
        rfl
      rw [hstep, ih us (acc ++ [u]) (calls ++ [(kind, w)]) hrest]
      simp

/-- The error branch of a lookup loop returns no other error than the lookup
error. -/
theorem lookupError_not_unexpectedCount (ig : Bool) (kind : IdKind) (v : String)
    (r : Option Bool) (c : String) (users : List User) (got expected : Nat) :
    lookupError ig kind v r c users ≠ .failed (.unexpectedCount got expected) := by
  cases ig <;> rcases r with _ | _ | _ <;> simp [lookupError]

/-- On the principal-name path a failed lookup always carries its response. -/
theorem get_response_present (client : UsersClient) (v : String) (c : String) :
    client.lookup .userPrincipalName v ≠ .failed none c := by
  simp only [UsersClient.lookup]
  cases client.Get v <;> simp [GetResult.toLookup]

/-- Every list of identifiers either resolves throughout or has a first
identifier whose lookup fails. -/
theorem lookup_cases (get : String → Lookup) (ids : List String) :
    (∃ us : List User, ids.map get = us.map Lookup.found) ∨
    (∃ (pre : List String) (v : String) (post : List String) (us : List User)
        (r : Option Bool) (c : String),
      ids = pre ++ v :: post ∧ pre.map get = us.map Lookup.found ∧ get v = .failed r c) := by
  induction ids with
  | nil => exact Or.inl ⟨[], rfl⟩
  | cons v rest ih =>
    cases hv : get v with
    | failed nf c => exact Or.inr ⟨[], v, rest, [], nf, c, rfl, rfl, hv⟩
    | found u =>
      rcases ih with ⟨us, hus⟩ | ⟨pre, w, post, us, nf, c, hids, hpre, hw⟩
      · exact Or.inl ⟨u :: us, by simp [hv, hus]⟩
      · exact Or.inr ⟨v :: pre, w, post, u :: us, nf, c, by simp [hids], by simp [hv, hpre], hw⟩

/-- Under `Selects`, the lookup phase is the loop of the selected kind over the
selected list. -/
theorem lookupUsers_of_selects (client : UsersClient) (d : ResourceData) (kind : IdKind)
    (ids : List String) (hsel : d.Selects kind ids) (hne : ids ≠ []) :
    lookupUsers client d =
      { expectedCount := ids.length,
        calls := (lookupLoop d.ignore_missing kind (client.lookup kind) ids [] []).calls,
        exit := (lookupLoop d.ignore_missing kind (client.lookup kind) ids [] []).exit } := by
  have hpos : 0 < ids.length := List.length_pos.mpr hne
  cases kind with
  | userPrincipalName =>
    have h1 : d.user_principal_names = ids := hsel
    simp [lookupUsers, h1, hpos, UsersClient.lookup]
  | objectId =>
    obtain ⟨h1, h2⟩ : d.user_principal_names = [] ∧ d.object_ids = ids := hsel
    simp [lookupUsers, h1, h2, hpos, UsersClient.lookup]
  | mailNickname =>
    obtain ⟨h1, h2, h3⟩ :
      d.user_principal_names = [] ∧ d.object_ids = [] ∧ d.mail_nicknames = ids := hsel
    simp [lookupUsers, h1, h2, h3, hpos, UsersClient.lookup]

/-- A request either carries no identifier at all or selects a non-empty list. -/
theorem selects_cases (d : ResourceData) :
    (d.user_principal_names = [] ∧ d.object_ids = [] ∧ d.mail_nicknames = []) ∨
    (∃ (kind : IdKind) (ids : List String), ids ≠ [] ∧ d.Selects kind ids) := by
  by_cases h1 : d.user_principal_names = []
  · by_cases h2 : d.object_ids = []
    · by_cases h3 : d.mail_nicknames = []
      · exact Or.inl ⟨h1, h2, h3⟩
      · exact Or.inr ⟨.mailNickname, d.mail_nicknames, h3, h1, h2, rfl⟩
    · exact Or.inr ⟨.objectId, d.object_ids, h2, h1, rfl⟩
  · exact Or.inr ⟨.userPrincipalName, d.user_principal_names, h1, rfl⟩

theorem lookupUsers_of_empty (client : UsersClient) (d : ResourceData)
    (h1 : d.user_principal_names = []) (h2 : d.object_ids = []) (h3 : d.mail_nicknames = []) :
    lookupUsers client d = { expectedCount := 0, calls := [], exit := .done [] } := by
  simp [lookupUsers, h1, h2, h3]

/-- Without `ignore_missing`, a loop that ends with `users` has appended one
record for each identifier. -/
theorem lookupLoop_done_length (kind : IdKind) (get : String → Lookup) (ids : List String)
    (acc users : List User) (calls : List (IdKind × String))
    (h : (lookupLoop false kind get ids acc calls).exit = .done users) :
    users.length = acc.length + ids.length := by
  rcases lookup_cases get ids with ⟨us, hus⟩ | ⟨pre, v, post, us, nf, c, hids, hpre, hv⟩
  · rw [lookupLoop_found false kind get ids us acc calls hus] at h
    simp only [LoopExit.done.injEq] at h
    have hlen : ids.length = us.length := by
      simpa using congrArg List.length hus
    rw [← h, List.length_append, hlen]
  · rw [hids, lookupLoop_failed false kind get v post nf c hv pre us acc calls hpre] at h
    simp [lookupError] at h

/-- Without `ignore_missing`, a lookup phase that ends with `users` has resolved
`expectedCount` records. -/
theorem lookupUsers_count (client : UsersClient) (d : ResourceData) (users : List User)
    (hig : d.ignore_missing = false) (h : (lookupUsers client d).exit = .done users) :
    users.length = (lookupUsers client d).expectedCount := by
  rcases selects_cases d with ⟨h1, h2, h3⟩ | ⟨kind, ids, hne, hsel⟩
  · rw [lookupUsers_of_empty client d h1 h2 h3] at h ⊢
    simp only [LoopExit.done.injEq] at h
    simp [← h]
  · rw [lookupUsers_of_selects client d kind ids hsel hne] at h ⊢
    simp only [hig] at h
    simpa using lookupLoop_done_length kind (client.lookup kind) ids [] users [] h

/-! ## The projection loop -/

theorem filterMap_map_some {α β : Type} (f : α → Option β) :
    ∀ l : List α, (∀ a ∈ l, (f a).isSome = true) → (l.filterMap f).map some = l.map f := by
  intro l
  induction l with
  | nil => intro _; rfl
  | cons a l ih =>
    intro h
    have ha := h a (List.mem_cons_self a l)
    obtain ⟨b, hb⟩ := Option.isSome_iff_exists.mp ha
    have hl := ih (fun x hx => h x (List.mem_cons_of_mem a hx))
    simp [List.filterMap_cons, hb, hl]

/-- On complete records the projection loop appends the fields of each record,
in order. -/
theorem projectLoop_complete :
    ∀ (users : List User) (p : Projection), (∀ u ∈ users, u.Complete) →
      projectLoop users p = .done
        { oids := p.oids ++ users.filterMap (fun u => u.ObjectID),
          upns := p.upns ++ users.filterMap (fun u => u.UserPrincipalName),
          mailNicknames := p.mailNicknames ++ users.filterMap (fun u => u.MailNickname),
          userList := p.userList ++ users.map userMap } := by
  intro users
  induction users with
  | nil => intro p _; simp [projectLoop]
  | cons u rest ih =>
    intro p h
    obtain ⟨ho, hu, hm⟩ := h u (List.mem_cons_self u rest)
    obtain ⟨oid, hoid⟩ := Option.isSome_iff_exists.mp ho
    obtain ⟨upn, hupn⟩ := Option.isSome_iff_exists.mp hu
    obtain ⟨nick, hnick⟩ := Option.isSome_iff_exists.mp hm
    have hrest := ih
      { oids := p.oids ++ [oid], upns := p.upns ++ [upn],
        mailNicknames := p.mailNicknames ++ [nick], userList := p.userList ++ [userMap u] }
      (fun x hx => h x (List.mem_cons_of_mem u hx))
    simp only [projectLoop, hoid, hupn, hnick, Option.isNone_some, Option.isSome_some,
      Bool.or_self, Bool.false_eq_true, if_false, if_true, hrest]
    simp [List.filterMap_cons, hoid, hupn, hnick]

/-- A projection loop that ends with its four slices has seen complete records
only. -/
theorem projectLoop_done_complete :
    ∀ (users : List User) (p q : Projection), projectLoop users p = .done q →
      ∀ u ∈ users, u.Complete := by
  intro users
  induction users with
  | nil => intro p q _ u hu; simp at hu
  | cons w rest ih =>
    intro p q h u hu
    cases ho : w.ObjectID with
    | none => simp [projectLoop, ho] at h
    | some oid =>
      cases hp : w.UserPrincipalName with
      | none => simp [projectLoop, ho, hp] at h
      | some upn =>
        cases hm : w.MailNickname with
        | none => simp [projectLoop, ho, hp, hm] at h
        | some nick =>
          simp only [projectLoop, ho, hp, hm, Option.isNone_some, Option.isSome_some,
            Bool.or_self, Bool.false_eq_true, if_false, if_true] at h
          rcases List.mem_cons.mp hu with rfl | hu
          · simp [User.Complete, ho, hp, hm]
          · exact ih _ q h u hu

/-- When every record has its object id and principal name and one of them has
no mail nickname, the projection loop ends in the nil dereference of line 192. -/
theorem projectLoop_nil_mailNickname :
    ∀ (users : List User) (p : Projection),
      (∀ u ∈ users, u.ObjectID.isSome = true ∧ u.UserPrincipalName.isSome = true) →
      (∃ u ∈ users, u.MailNickname = none) →
      projectLoop users p = .nilDereference := by
  intro users
  induction users with
  | nil => intro p _ h; obtain ⟨u, hu, _⟩ := h; simp at hu
  | cons w rest ih =>
    intro p hall hex
    obtain ⟨ho, hu⟩ := hall w (List.mem_cons_self w rest)
    obtain ⟨oid, hoid⟩ := Option.isSome_iff_exists.mp ho
    obtain ⟨upn, hupn⟩ := Option.isSome_iff_exists.mp hu
    cases hm : w.MailNickname with
    | none => simp [projectLoop, hoid, hupn, hm]
    | some nick =>
      have hex2 : ∃ u ∈ rest, u.MailNickname = none := by
        obtain ⟨x, hx, hxn⟩ := hex
        rcases List.mem_cons.mp hx with rfl | hx
        · rw [hm] at hxn; cases hxn
        · exact ⟨x, hx, hxn⟩
      have hrest := ih
        { oids := p.oids ++ [oid], upns := p.upns ++ [upn],
          mailNicknames := p.mailNicknames ++ [nick], userList := p.userList ++ [userMap w] }
        (fun x hx => hall x (List.mem_cons_of_mem w hx)) hex2
      simp only [projectLoop, hoid, hupn, hm, Option.isNone_some, Option.isSome_some,
        Bool.or_self, Bool.false_eq_true, if_false, if_true, hrest]

/-- The projection loop returns no other error than that of line 186. -/
theorem projectLoop_not_unexpectedCount :
    ∀ (users : List User) (p : Projection) (got expected : Nat),
      projectLoop users p ≠ .failed (.unexpectedCount got expected) := by
  intro users
  induction users with
  | nil => intro p got expected h; simp [projectLoop] at h
  | cons w rest ih =>
    intro p got expected h
    cases ho : w.ObjectID with
    | none => simp [projectLoop, ho] at h
    | some oid =>
      cases hp : w.UserPrincipalName with
      | none => simp [projectLoop, ho, hp] at h
      | some upn =>
        cases hm : w.MailNickname with
        | none => simp [projectLoop, ho, hp, hm] at h
        | some nick =>
          simp only [projectLoop, ho, hp, hm, Option.isNone_some, Option.isSome_some,
            Bool.or_self, Bool.false_eq_true, if_false, if_true] at h
          exact ih _ got expected h

/-- Behind complete records, a record without object id or principal name
ends the projection loop with the error of line 186. -/
theorem projectLoop_missing_field (u : User) (post : List User)
    (hu : u.ObjectID = none ∨ u.UserPrincipalName = none) :
    ∀ (pre : List User) (p : Projection), (∀ x ∈ pre, x.Complete) →
      projectLoop (pre ++ u :: post) p = .failed (.nilObjectIdOrUpn u) := by
  intro pre
  induction pre with
  | nil =>
    intro p _
    rcases hu with hu | hu <;> simp [projectLoop, hu]
  | cons w rest ih =>
    intro p h
    obtain ⟨ho, hp, hm⟩ := h w (List.mem_cons_self w rest)
    obtain ⟨oid, hoid⟩ := Option.isSome_iff_exists.mp ho
    obtain ⟨upn, hupn⟩ := Option.isSome_iff_exists.mp hp
    obtain ⟨nick, hnick⟩ := Option.isSome_iff_exists.mp hm
    have hrest := ih
      { oids := p.oids ++ [oid], upns := p.upns ++ [upn],
        mailNicknames := p.mailNicknames ++ [nick], userList := p.userList ++ [userMap w] }
      (fun x hx => h x (List.mem_cons_of_mem w hx))
    have hstep : projectLoop ((w :: rest) ++ u :: post) p =
        projectLoop (rest ++ u :: post)
          { oids := p.oids ++ [oid], upns := p.upns ++ [upn],
            mailNicknames := p.mailNicknames ++ [nick],
            userList := p.userList ++ [userMap w] } := by
      simp only [List.cons_append, projectLoop, hoid, hupn, hnick, Option.isNone_some,
        Option.isSome_some, Bool.or_self, Bool.false_eq_true, if_false, if_true]
      rfl
    rw [hstep, hrest]

/-- The identifier of the names `a@x.com`, `b@x.com`, computed. -/
theorem usersId_example :
    usersId ["a@x.com", "b@x.com"] = "users#8lCZr7AKElmKEwX58ATW-TY_-1o=" := by
  decide!

/-! ## The read as a whole -/

/-- The calls of a read are those of its lookup phase. -/
theorem read_calls (client : UsersClient) (d : ResourceData) :
    (dataSourceUsersRead client d).calls = (lookupUsers client d).calls := by
  unfold dataSourceUsersRead
  simp only
  split
  · rfl
  · rfl
  · split
    · rfl
    · split
      · rfl
      · split <;> rfl

/-- A lookup phase that returns an error ends the read with that error and the
resource data untouched. -/
theorem read_of_failed (client : UsersClient) (d : ResourceData) (e : ReadError)
    (h : (lookupUsers client d).exit = .failed e) :
    dataSourceUsersRead client d =
      { calls := (lookupUsers client d).calls, data := d, outcome := .error e } := by
  unfold dataSourceUsersRead
  simp only [h]

/-- A lookup phase that ends in a nil dereference ends the read there, with the
resource data untouched. -/
theorem read_of_crash (client : UsersClient) (d : ResourceData) (users : List User)
    (h : (lookupUsers client d).exit = .nilDereference users) :
    dataSourceUsersRead client d =
      { calls := (lookupUsers client d).calls, data := d, outcome := .nilDereference } := by
  unfold dataSourceUsersRead
  simp only [h]

/-- The read after a lookup phase that resolved `users`, once the two checks of
lines 172-178 are passed. -/
theorem read_of_done (client : UsersClient) (d : ResourceData) (users : List User)
    (h : (lookupUsers client d).exit = .done users)
    (hne : d.ignore_missing = true → users ≠ []) :
    dataSourceUsersRead client d =
      match projectLoop users { oids := [], upns := [], mailNicknames := [], userList := [] } with
      | .failed e => { calls := (lookupUsers client d).calls, data := d, outcome := .error e }
      | .nilDereference =>
        { calls := (lookupUsers client d).calls, data := d, outcome := .nilDereference }
      | .done p =>
        { calls := (lookupUsers client d).calls
          data := ((((d.SetId (usersId p.upns)).SetObjectIds p.oids).SetUserPrincipalNames
            p.upns).SetMailNicknames p.mailNicknames).SetUsers p.userList
          outcome := .ok } := by
  unfold dataSourceUsersRead
  simp only [h]
  cases hig : d.ignore_missing with
  | false =>
    have hc := lookupUsers_count client d users hig h
    simp [hc]
  | true =>
    have hu := hne hig
    have hlen : users.length ≠ 0 := by
      intro h0; exact hu (List.length_eq_zero.mp h0)
    simp [hlen]

/-- With `ignore_missing`, a lookup phase that resolved nothing ends the read
with the error of line 177 and the resource data untouched. -/
theorem read_of_none (client : UsersClient) (d : ResourceData)
    (hig : d.ignore_missing = true) (h : (lookupUsers client d).exit = .done []) :
    dataSourceUsersRead client d =
      { calls := (lookupUsers client d).calls, data := d, outcome := .error .noUsers } := by
  unfold dataSourceUsersRead
  simp [h, hig]

/-- A lookup phase that resolved complete records ends the read with the five
writes made and `nil` returned. -/
theorem read_of_complete (client : UsersClient) (d : ResourceData) (users : List User)
    (h : (lookupUsers client d).exit = .done users)
    (hne : d.ignore_missing = true → users ≠ [])
    (hc : ∀ u ∈ users, u.Complete) :
    dataSourceUsersRead client d =
      { calls := (lookupUsers client d).calls, data := d.written users, outcome := .ok } := by
  rw [read_of_done client d users h hne, projectLoop_complete users _ hc]
  simp [ResourceData.written]

/-- A read that returns `nil` resolved complete records and made the five
writes from them. -/
theorem read_ok_inv (client : UsersClient) (d : ResourceData)
    (hok : (dataSourceUsersRead client d).outcome = .ok) :
    ∃ users : List User, (lookupUsers client d).exit = .done users ∧
      (d.ignore_missing = true → users ≠ []) ∧ (∀ u ∈ users, u.Complete) ∧
      dataSourceUsersRead client d =
        { calls := (lookupUsers client d).calls, data := d.written users, outcome := .ok } := by
  cases hexit : (lookupUsers client d).exit with
  | failed e =>
    rw [read_of_failed client d e hexit] at hok
    simp at hok
  | nilDereference users =>
    rw [read_of_crash client d users hexit] at hok
    simp at hok
  | done users =>
    have hne : d.ignore_missing = true → users ≠ [] := by
      intro hig hnil
      subst hnil
      rw [read_of_none client d hig hexit] at hok
      simp at hok
    have hread := read_of_done client d users hexit hne
    cases hp : projectLoop users { oids := [], upns := [], mailNicknames := [], userList := [] } with
    | failed e => rw [hread, hp] at hok; simp at hok
    | nilDereference => rw [hread, hp] at hok; simp at hok
    | done q =>
      have hc := projectLoop_done_complete users _ q hp
      exact ⟨users, rfl, hne, hc, read_of_complete client d users hexit hne hc⟩

/-- A request built by `request` selects the list it carries. -/
theorem request_selects (kind : IdKind) (ids : List String) (ig : Bool) :
    (request kind ids ig).Selects kind ids := by
  cases kind <;> simp [request, ResourceData.Selects]

/-- A read of one list that resolves throughout to complete records, without
`ignore_missing`: the calls, the five writes, `nil` returned. -/
theorem read_request_found (client : UsersClient) (kind : IdKind) (ids : List String)
    (us : List User)
    (hfound : ids.map (client.lookup kind) = us.map Lookup.found)
    (hc : ∀ u ∈ us, u.Complete) :
    dataSourceUsersRead client (request kind ids false) =
      { calls := ids.map (Prod.mk kind), data := (request kind ids false).written us,
        outcome := .ok } := by
  have hig : (request kind ids false).ignore_missing = true → us ≠ [] := by
    intro h; cases h
  by_cases hne : ids = []
  · subst hne
    have hus : us = [] := by
      cases us with
      | nil => rfl
      | cons u us => simp at hfound
    subst hus
    have hphase := lookupUsers_of_empty client (request kind [] false)
      (by cases kind <;> rfl) (by cases kind <;> rfl) (by cases kind <;> rfl)
    have hexit : (lookupUsers client (request kind [] false)).exit = .done [] := by
      rw [hphase]
    rw [read_of_complete client _ [] hexit hig hc, hphase]
    rfl
  · have hphase := lookupUsers_of_selects client (request kind ids false) kind ids
      (request_selects kind ids false) hne
    have hloop := lookupLoop_found (request kind ids false).ignore_missing kind
      (client.lookup kind) ids us [] [] hfound
    simp only [List.nil_append] at hloop
    have hexit : (lookupUsers client (request kind ids false)).exit = .done us := by
      rw [hphase, hloop]
    rw [read_of_complete client _ us hexit hig hc, hphase, hloop]

/-- In a directory that returns each of the records `users` under its own key of
kind `kind`, the keys of the records resolve to the records. -/
theorem keys_found (client : UsersClient) (kind : IdKind) :
    ∀ users : List User, (∀ u ∈ users, u.Complete) →
      (∀ u ∈ users, ∀ key, u.key kind = some key → client.lookup kind key = .found u) →
      (users.filterMap (fun u => u.key kind)).map (client.lookup kind) =
        users.map Lookup.found := by
  intro users
  induction users with
  | nil => intro _ _; rfl
  | cons u rest ih =>
    intro hc hdir
    have hsome : (u.key kind).isSome = true := by
      obtain ⟨ho, hp, hm⟩ := hc u (List.mem_cons_self u rest)
      cases kind
      · exact hp
      · exact ho
      · exact hm
    obtain ⟨key, hkey⟩ := Option.isSome_iff_exists.mp hsome
    have hu := hdir u (List.mem_cons_self u rest) key hkey
    have hrest := ih (fun x hx => hc x (List.mem_cons_of_mem u hx))
      (fun x hx => hdir x (List.mem_cons_of_mem u hx))
    simp [List.filterMap_cons, hkey, hu, hrest]

/-- The list of each kind a successful read leaves holds the keys of that kind
of the resolved records. -/
theorem written_list (d : ResourceData) (users : List User) (kind : IdKind) :
    (d.written users).list kind = users.filterMap (fun u => u.key kind) := by
  cases kind <;> rfl

/-- An identifier of a list that resolves throughout is found. -/
theorem found_of_mem (get : String → Lookup) :
    ∀ (ids : List String) (us : List User), ids.map get = us.map Lookup.found →
      ∀ v ∈ ids, ∃ u, get v = .found u := by
  intro ids
  induction ids with
  | nil => intro us _ v hv; simp at hv
  | cons w rest ih =>
    intro us h v hv
    cases us with
    | nil => simp at h
    | cons u us =>
      simp only [List.map_cons, List.cons.injEq] at h
      rcases List.mem_cons.mp hv with rfl | hv
      · exact ⟨u, h.1⟩
      · exact ih us h.2 v hv

/-- The identifier at a position of a list of calls of one kind. -/
theorem getElem?_of_calls (kind : IdKind) (l : List String) (i : Nat) (v : String)
    (h : (l.map (Prod.mk kind))[i]? = some (kind, v)) : l[i]? = some v := by
  rw [List.getElem?_map] at h
  cases hl : l[i]? with
  | none => rw [hl] at h; cases h
  | some w =>
    rw [hl] at h
    simp at h
    rw [h]

/-! ## The claims -/

/-- C2. Without `ignore_missing`, when a lookup the read performs returns
not-found, the read returns the lookup error naming that identifier and its
cause, and the resource data is left as it was: no `SetId`, no `Set`.  The
response is not read on this path, so the same holds of every failed lookup,
whether it hands back a not-found response (`response = some true`), another
response, or no record at all. -/
theorem lookup_error_names_identifier (client : UsersClient) (d : ResourceData)
    (kind : IdKind) (v cause : String) (response : Option Bool)
    (hig : d.ignore_missing = false)
    (hcall : (kind, v) ∈ (dataSourceUsersRead client d).calls)
    (hnf : client.lookup kind v = .failed response cause) :
    (dataSourceUsersRead client d).outcome = .error (.lookupFailed kind v cause) ∧
    (dataSourceUsersRead client d).data = d := by
  rw [read_calls] at hcall
  rcases selects_cases d with ⟨h1, h2, h3⟩ | ⟨k, ids, hne, hsel⟩
  · rw [lookupUsers_of_empty client d h1 h2 h3] at hcall
    simp at hcall
  · have hphase := lookupUsers_of_selects client d k ids hsel hne
    rw [hphase] at hcall
    simp only at hcall
    rcases lookup_cases (client.lookup k) ids with
      ⟨us, hus⟩ | ⟨pre, w, post, us, nf, c, hids, hpre, hw⟩
    · rw [lookupLoop_found _ k _ ids us [] [] hus] at hcall
      simp only [List.nil_append, List.mem_map, Prod.mk.injEq] at hcall
      obtain ⟨x, hx, hk, hxv⟩ := hcall
      subst hk hxv
      obtain ⟨u, hu⟩ := found_of_mem _ ids us hus x hx
      rw [hu] at hnf
      cases hnf
    · have hloop := lookupLoop_failed d.ignore_missing k (client.lookup k) w post nf c hw
        pre us [] [] hpre
      rw [← hids] at hloop
      rw [hloop] at hcall
      simp only [List.nil_append, List.mem_map, Prod.mk.injEq, List.mem_append,
        List.mem_singleton] at hcall
      obtain ⟨x, hx, hk, hxv⟩ := hcall
      subst hk hxv
      rcases hx with hx | hx
      · obtain ⟨u, hu⟩ := found_of_mem _ pre us hpre x hx
        rw [hu] at hnf
        cases hnf
      · subst hx
        rw [hw] at hnf
        simp only [Lookup.failed.injEq] at hnf
        obtain ⟨hnf1, hc⟩ := hnf
        subst hnf1 hc
        have hexit : (lookupUsers client d).exit = .failed (.lookupFailed k x c) := by
          rw [hphase, hloop, hig]
          simp [lookupError]
        rw [read_of_failed client d _ hexit]
        exact ⟨rfl, rfl⟩

/-- Witness of C2: the second of two principal names is unknown to the sample
directory. -/
theorem lookup_error_names_identifier_witness :
    (dataSourceUsersRead sampleClient
      (request .userPrincipalName ["a@x.com", "z@x.com"] false)).outcome =
        .error (.lookupFailed .userPrincipalName "z@x.com" "404") ∧
    (dataSourceUsersRead sampleClient
      (request .userPrincipalName ["a@x.com", "z@x.com"] false)).data =
        request .userPrincipalName ["a@x.com", "z@x.com"] false :=
  lookup_error_names_identifier sampleClient
    (request .userPrincipalName ["a@x.com", "z@x.com"] false) .userPrincipalName
    "z@x.com" "404" (some true) rfl (by decide) (by decide)

/-- What the break of lines 139-141, 151-153 and 163-165 does achieve: with
`ignore_missing`, when the lookup of the first identifier of the selected list
hands back a not-found response, the read returns the error "No users were
returned", leaves the resource data as it was and makes no further lookup. -/
theorem no_users_on_not_found_response (client : UsersClient) (d : ResourceData)
    (kind : IdKind) (v : String) (rest : List String) (cause : String)
    (hsel : d.Selects kind (v :: rest))
    (hig : d.ignore_missing = true)
    (hnf : client.lookup kind v = .failed (some true) cause) :
    (dataSourceUsersRead client d).outcome = .error .noUsers ∧
    (dataSourceUsersRead client d).data = d ∧
    (dataSourceUsersRead client d).calls = [(kind, v)] := by
  have hphase := lookupUsers_of_selects client d kind (v :: rest) hsel (by simp)
  have hloop := lookupLoop_failed d.ignore_missing kind (client.lookup kind) v rest
    (some true) cause hnf [] [] [] [] rfl
  simp only [List.nil_append, hig, List.map_cons, List.map_nil, lookupError, if_true]
    at hloop
  have hexit : (lookupUsers client d).exit = .done [] := by
    rw [hphase, hig, hloop]
  have hcalls : (lookupUsers client d).calls = [(kind, v)] := by
    rw [hphase, hig, hloop]
  rw [read_of_none client d hig hexit, hcalls]
  exact ⟨rfl, rfl, rfl⟩

/-- On the principal-name path the record is a value, so a not-found answer of
`client.Get` for the first name always gives the error "No users were
returned". -/
theorem no_users_on_get_not_found (client : UsersClient) (d : ResourceData)
    (v : String) (rest : List String) (cause : String)
    (hsel : d.user_principal_names = v :: rest)
    (hig : d.ignore_missing = true)
    (hget : client.Get v = .failed true cause) :
    (dataSourceUsersRead client d).outcome = .error .noUsers ∧
    (dataSourceUsersRead client d).data = d ∧
    (dataSourceUsersRead client d).calls = [(.userPrincipalName, v)] :=
  no_users_on_not_found_response client d .userPrincipalName v rest cause hsel hig
    (by simp [UsersClient.lookup, hget, GetResult.toLookup])

/-- With `ignore_missing`, when the lookup of the first identifier of the
selected list fails and the helper hands back no record, the read ends in the
nil dereference of `u.Response` and returns no error at all. -/
theorem nil_record_dereferenced (client : UsersClient) (d : ResourceData)
    (kind : IdKind) (v : String) (rest : List String) (cause : String)
    (hsel : d.Selects kind (v :: rest))
    (hig : d.ignore_missing = true)
    (hnf : client.lookup kind v = .failed none cause) :
    (dataSourceUsersRead client d).outcome = .nilDereference ∧
    (dataSourceUsersRead client d).data = d ∧
    (dataSourceUsersRead client d).calls = [(kind, v)] := by
  have hphase := lookupUsers_of_selects client d kind (v :: rest) hsel (by simp)
  have hloop := lookupLoop_failed d.ignore_missing kind (client.lookup kind) v rest
    none cause hnf [] [] [] [] rfl
  simp only [List.nil_append, hig, List.map_cons, List.map_nil, lookupError, if_true]
    at hloop
  have hexit : (lookupUsers client d).exit = .nilDereference [] := by
    rw [hphase, hig, hloop]
  have hcalls : (lookupUsers client d).calls = [(kind, v)] := by
    rw [hphase, hig, hloop]
  rw [read_of_crash client d [] hexit, hcalls]
  exact ⟨rfl, rfl, rfl⟩

/-- C4 at a failing input. The first object id is unknown to the directory and
`graph.UserGetByObjectId` hands back its error with no record: with
`ignore_missing` the read dereferences the nil pointer at line 151 and does not
return the error "No users were returned". -/
theorem first_miss_nil_record_dereferenced :
    (request .objectId ["00000000-0000-0000-0000-000000000009",
      "00000000-0000-0000-0000-000000000001"] true).ignore_missing = true ∧
    listingClient.UserGetByObjectId "00000000-0000-0000-0000-000000000009" =
      .failed none "Found no AD Users matching" ∧
    (dataSourceUsersRead listingClient
      (request .objectId ["00000000-0000-0000-0000-000000000009",
        "00000000-0000-0000-0000-000000000001"] true)).calls =
      [(.objectId, "00000000-0000-0000-0000-000000000009")] ∧
    (dataSourceUsersRead listingClient
      (request .objectId ["00000000-0000-0000-0000-000000000009",
        "00000000-0000-0000-0000-000000000001"] true)).outcome = .nilDereference ∧
    (dataSourceUsersRead listingClient
      (request .objectId ["00000000-0000-0000-0000-000000000009",
        "00000000-0000-0000-0000-000000000001"] true)).outcome ≠ .error .noUsers := by
  decide

/-- C3. With `ignore_missing`, when the `k`-th lookup the read performs returns
not-found, the records resolved are exactly the `k - 1` records the lookups of
the first `k - 1` identifiers returned, in that order, and the lookups made are
those of the first `k` identifiers: none of the remaining ones is attempted.
The `k`-th lookup reports the miss either with a not-found response
(`response = some true`), and the loop breaks with those records, or with an
error and no record (`response = none`), and the loop stops in the nil
dereference of `u.Response` with those records appended. -/
theorem early_stop_at_first_miss (client : UsersClient) (d : ResourceData)
    (kind : IdKind) (ids : List String) (k : Nat) (v cause : String)
    (response : Option Bool)
    (hsel : d.Selects kind ids)
    (hig : d.ignore_missing = true)
    (hk : 1 ≤ k) (hkN : k ≤ ids.length)
    (hcall : (dataSourceUsersRead client d).calls[k - 1]? = some (kind, v))
    (hmiss : client.lookup kind v = .failed response cause)
    (hnf : response ≠ some false) :
    ∃ users : List User,
      ((response = some true ∧ (lookupUsers client d).exit = .done users) ∨
        (response = none ∧ (lookupUsers client d).exit = .nilDereference users)) ∧
      users.length = k - 1 ∧
      users.map Lookup.found = (ids.take (k - 1)).map (client.lookup kind) ∧
      (dataSourceUsersRead client d).calls = (ids.take k).map (Prod.mk kind) ∧
      (dataSourceUsersRead client d).calls.length = k := by
  have hne : ids ≠ [] := by
    intro h; subst h; simp at hkN; omega
  rw [read_calls] at hcall ⊢
  have hphase := lookupUsers_of_selects client d kind ids hsel hne
  rw [hphase] at hcall ⊢
  simp only at hcall ⊢
  rcases lookup_cases (client.lookup kind) ids with
    ⟨us, hus⟩ | ⟨pre, w, post, us, r, c, hids, hpre, hw⟩
  · rw [lookupLoop_found _ kind _ ids us [] [] hus] at hcall
    simp only [List.nil_append] at hcall
    have hcall := getElem?_of_calls kind ids (k - 1) v hcall
    obtain ⟨u, hu⟩ := found_of_mem _ ids us hus v (List.getElem?_mem hcall)
    rw [hu] at hmiss
    cases hmiss
  · have hloop := lookupLoop_failed d.ignore_missing kind (client.lookup kind) w post r c hw
      pre us [] [] hpre
    rw [← hids] at hloop
    rw [hloop] at hcall ⊢
    simp only [List.nil_append] at hcall
    have hcall := getElem?_of_calls kind (pre ++ [w]) (k - 1) v hcall
    have hlen : pre.length = us.length := by
      simpa using congrArg List.length hpre
    have hkpre : k - 1 = pre.length := by
      rcases Nat.lt_trichotomy (k - 1) pre.length with hlt | heq | hgt
      · rw [List.getElem?_append_left hlt] at hcall
        obtain ⟨u, hu⟩ := found_of_mem _ pre us hpre v (List.getElem?_mem hcall)
        rw [hu] at hmiss
        cases hmiss
      · exact heq
      · rw [List.getElem?_eq_none (by simp; omega)] at hcall
        cases hcall
    have hvw : w = v := by
      rw [hkpre] at hcall
      simpa using hcall
    subst hvw
    rw [hw] at hmiss
    simp only [Lookup.failed.injEq] at hmiss
    obtain ⟨hr, hc⟩ := hmiss
    subst hr hc
    have hk1 : k = pre.length + 1 := by omega
    refine ⟨us, ?_, by omega, ?_, ?_, ?_⟩
    · cases r with
      | none => exact Or.inr ⟨rfl, by simp [hig, lookupError]⟩
      | some b =>
        cases b with
        | false => exact absurd rfl hnf
        | true => exact Or.inl ⟨rfl, by simp [hig, lookupError]⟩
    · rw [hkpre, hids, List.take_left, hpre]
    · rw [hk1, hids]
      simp [List.take_append_eq_append_take]
    · simp [hk1]

/-- Witness of C3: the third of four principal names is unknown; two records
are resolved and the fourth name is never looked up. -/
theorem early_stop_at_first_miss_witness :
    ∃ users : List User,
      ((some true = some true ∧
          (lookupUsers sampleClient (request .userPrincipalName
            ["a@x.com", "b@x.com", "z@x.com", "a@x.com"] true)).exit = .done users) ∨
        (some true = none ∧
          (lookupUsers sampleClient (request .userPrincipalName
            ["a@x.com", "b@x.com", "z@x.com", "a@x.com"] true)).exit =
              .nilDereference users)) ∧
      users.length = 3 - 1 ∧
      users.map Lookup.found =
        (["a@x.com", "b@x.com", "z@x.com", "a@x.com"].take (3 - 1)).map
          (sampleClient.lookup .userPrincipalName) ∧
      (dataSourceUsersRead sampleClient (request .userPrincipalName
        ["a@x.com", "b@x.com", "z@x.com", "a@x.com"] true)).calls =
        (["a@x.com", "b@x.com", "z@x.com", "a@x.com"].take 3).map
          (Prod.mk IdKind.userPrincipalName) ∧
      (dataSourceUsersRead sampleClient (request .userPrincipalName
        ["a@x.com", "b@x.com", "z@x.com", "a@x.com"] true)).calls.length = 3 :=
  early_stop_at_first_miss sampleClient
    (request .userPrincipalName ["a@x.com", "b@x.com", "z@x.com", "a@x.com"] true)
    .userPrincipalName ["a@x.com", "b@x.com", "z@x.com", "a@x.com"] 3 "z@x.com" "404"
    (some true) rfl rfl (by decide) (by decide) (by decide) (by decide) (by decide)

/-- The early stop on the object-id path of a directory whose helper hands back
no record on a miss: one record is appended, the second lookup ends the loop in
the nil dereference, the third identifier is never looked up. -/
theorem early_stop_nil_record_example :
    (lookupUsers listingClient (request .objectId
      ["00000000-0000-0000-0000-000000000002", "00000000-0000-0000-0000-000000000009",
        "00000000-0000-0000-0000-000000000001"] true)).exit = .nilDereference [bob] ∧
    (dataSourceUsersRead listingClient (request .objectId
      ["00000000-0000-0000-0000-000000000002", "00000000-0000-0000-0000-000000000009",
        "00000000-0000-0000-0000-000000000001"] true)).calls =
      [(.objectId, "00000000-0000-0000-0000-000000000002"),
        (.objectId, "00000000-0000-0000-0000-000000000009")] := by
  decide

/-- C9. The mail nickname is dereferenced unconditionally: when every resolved
record has its object id and its principal name and one of them has no mail
nickname, the projection loop ends in a nil dereference, so the read neither
returns `nil` nor any of its errors, and the resource data is left as it was. -/
theorem nil_mailNickname_dereferenced (client : UsersClient) (d : ResourceData)
    (users : List User)
    (hexit : (lookupUsers client d).exit = .done users)
    (hall : ∀ u ∈ users, u.ObjectID.isSome = true ∧ u.UserPrincipalName.isSome = true)
    (hex : ∃ u ∈ users, u.MailNickname = none) :
    projectLoop users { oids := [], upns := [], mailNicknames := [], userList := [] } =
      .nilDereference ∧
    (dataSourceUsersRead client d).outcome = .nilDereference ∧
    (dataSourceUsersRead client d).outcome ≠ .ok ∧
    (∀ e, (dataSourceUsersRead client d).outcome ≠ .error e) ∧
    (dataSourceUsersRead client d).data = d := by
  have hp := projectLoop_nil_mailNickname users
    { oids := [], upns := [], mailNicknames := [], userList := [] } hall hex
  have hne : d.ignore_missing = true → users ≠ [] := by
    intro _ hnil
    obtain ⟨u, hu, _⟩ := hex
    rw [hnil] at hu
    cases hu
  have hread := read_of_done client d users hexit hne
  rw [hp] at hread
  rw [hread]
  refine ⟨hp, rfl, ?_, ?_, rfl⟩
  · intro h; cases h
  · intro e h; cases h

/-- Witness of C9: `alice` is complete, `guest` has an object id and a principal
name and no mail nickname. -/
theorem nil_mailNickname_dereferenced_witness :
    projectLoop [alice, guest] { oids := [], upns := [], mailNicknames := [], userList := [] } =
      .nilDereference ∧
    (dataSourceUsersRead sparseClient
      (request .userPrincipalName ["a@x.com", "guest@x.com"] false)).outcome =
        .nilDereference ∧
    (dataSourceUsersRead sparseClient
      (request .userPrincipalName ["a@x.com", "guest@x.com"] false)).outcome ≠ .ok ∧
    (∀ e, (dataSourceUsersRead sparseClient
      (request .userPrincipalName ["a@x.com", "guest@x.com"] false)).outcome ≠ .error e) ∧
    (dataSourceUsersRead sparseClient
      (request .userPrincipalName ["a@x.com", "guest@x.com"] false)).data =
        request .userPrincipalName ["a@x.com", "guest@x.com"] false :=
  nil_mailNickname_dereferenced sparseClient
    (request .userPrincipalName ["a@x.com", "guest@x.com"] false) [alice, guest]
    (by decide) (by decide) ⟨guest, by decide, rfl⟩

/-- C10. The count check of line 172 never fires: without `ignore_missing`, a
lookup phase that ends without an error has resolved `expectedCount` records,
and no read, whatever the three lists and the directory, returns the error
"Unexpected number of users returned". -/
theorem unexpected_count_unreachable (client : UsersClient) (d : ResourceData) :
    (d.ignore_missing = false → ∀ users : List User,
      (lookupUsers client d).exit = .done users →
      users.length = (lookupUsers client d).expectedCount) ∧
    (∀ got expected : Nat,
      (dataSourceUsersRead client d).outcome ≠ .error (.unexpectedCount got expected)) := by
  refine ⟨fun hig users h => lookupUsers_count client d users hig h, ?_⟩
  intro got expected hout
  cases hexit : (lookupUsers client d).exit with
  | failed e =>
    rw [read_of_failed client d e hexit] at hout
    simp only [Outcome.error.injEq] at hout
    subst hout
    rcases selects_cases d with ⟨h1, h2, h3⟩ | ⟨k, ids, hne, hsel⟩
    · rw [lookupUsers_of_empty client d h1 h2 h3] at hexit
      cases hexit
    · rw [lookupUsers_of_selects client d k ids hsel hne] at hexit
      simp only at hexit
      rcases lookup_cases (client.lookup k) ids with
        ⟨us, hus⟩ | ⟨pre, w, post, us, nf, c, hids, hpre, hw⟩
      · rw [lookupLoop_found _ k _ ids us [] [] hus] at hexit
        cases hexit
      · rw [hids, lookupLoop_failed _ k _ w post nf c hw pre us [] [] hpre] at hexit
        exact lookupError_not_unexpectedCount _ k w nf c _ got expected hexit
  | nilDereference users =>
    rw [read_of_crash client d users hexit] at hout
    cases hout
  | done users =>
    by_cases hempty : d.ignore_missing = true ∧ users = []
    · obtain ⟨hig, hnil⟩ := hempty
      subst hnil
      rw [read_of_none client d hig hexit] at hout
      cases hout
    · have hne : d.ignore_missing = true → users ≠ [] := fun hig hnil => hempty ⟨hig, hnil⟩
      have hread := read_of_done client d users hexit hne
      cases hp : projectLoop users
          { oids := [], upns := [], mailNicknames := [], userList := [] } with
      | nilDereference => rw [hread, hp] at hout; cases hout
      | done q => rw [hread, hp] at hout; cases hout
      | failed e =>
        rw [hread, hp] at hout
        simp only [Outcome.error.injEq] at hout
        subst hout
        exact absurd hp (projectLoop_not_unexpectedCount users _ got expected)

/-- Witness of C10: two known principal names, read without `ignore_missing`. -/
theorem unexpected_count_unreachable_witness :
    (false = false → ∀ users : List User,
      (lookupUsers sampleClient
        (request .userPrincipalName ["a@x.com", "b@x.com"] false)).exit = .done users →
      users.length = 2) ∧
    (∀ got expected : Nat,
      (dataSourceUsersRead sampleClient
        (request .userPrincipalName ["a@x.com", "b@x.com"] false)).outcome ≠
          .error (.unexpectedCount got expected)) :=
  unexpected_count_unreachable sampleClient
    (request .userPrincipalName ["a@x.com", "b@x.com"] false)

/-- C1 as stated fails: the one lookup of the request succeeds, and the read
returns the error of line 186 because the record found has no object id. -/
theorem all_found_yet_read_fails :
    ["ghost@x.com"] ≠ [] ∧
    (request .userPrincipalName ["ghost@x.com"] false).ignore_missing = false ∧
    ["ghost@x.com"].map (sparseClient.lookup .userPrincipalName) = [ghost].map Lookup.found ∧
    (dataSourceUsersRead sparseClient
      (request .userPrincipalName ["ghost@x.com"] false)).outcome =
        .error (.nilObjectIdOrUpn ghost) ∧
    (dataSourceUsersRead sparseClient
      (request .userPrincipalName ["ghost@x.com"] false)).outcome ≠ .ok := by
  decide

/-- C1, amended. For a non-empty identifier list of any of the three kinds read
without `ignore_missing`, when all lookups succeed and every record returned has
its object id, principal name and mail nickname, the read returns `nil`, the
`users` list it writes is the list of the records found, projected, in lookup
order, and `users` and the three written lists have the length of the input. -/
theorem read_all_found (client : UsersClient) (d : ResourceData) (kind : IdKind)
    (ids : List String) (us : List User)
    (hne : ids ≠ [])
    (hsel : d.Selects kind ids)
    (hig : d.ignore_missing = false)
    (hfound : ids.map (client.lookup kind) = us.map Lookup.found)
    (hc : ∀ u ∈ us, u.Complete) :
    (dataSourceUsersRead client d).outcome = .ok ∧
    (dataSourceUsersRead client d).calls = ids.map (Prod.mk kind) ∧
    (dataSourceUsersRead client d).data.users = us.map userMap ∧
    (dataSourceUsersRead client d).data.users.length = ids.length ∧
    (dataSourceUsersRead client d).data.object_ids.length = ids.length ∧
    (dataSourceUsersRead client d).data.user_principal_names.length = ids.length ∧
    (dataSourceUsersRead client d).data.mail_nicknames.length = ids.length ∧
    (dataSourceUsersRead client d).data.writes = d.writes ++
      [.SetId (dataSourceUsersRead client d).data.Id,
       .SetObjectIds (dataSourceUsersRead client d).data.object_ids,
       .SetUserPrincipalNames (dataSourceUsersRead client d).data.user_principal_names,
       .SetMailNicknames (dataSourceUsersRead client d).data.mail_nicknames,
       .SetUsers (dataSourceUsersRead client d).data.users] := by
  have hphase := lookupUsers_of_selects client d kind ids hsel hne
  have hloop := lookupLoop_found d.ignore_missing kind (client.lookup kind) ids us [] [] hfound
  simp only [List.nil_append] at hloop
  have hexit : (lookupUsers client d).exit = .done us := by rw [hphase, hloop]
  have hcalls : (lookupUsers client d).calls = ids.map (Prod.mk kind) := by rw [hphase, hloop]
  have hread := read_of_complete client d us hexit (by simp [hig]) hc
  have hlen : us.length = ids.length := by
    simpa using (congrArg List.length hfound).symm
  have ho := congrArg List.length
    (filterMap_map_some (fun u : User => u.ObjectID) us (fun u hu => (hc u hu).1))
  have hu := congrArg List.length
    (filterMap_map_some (fun u : User => u.UserPrincipalName) us (fun u hu => (hc u hu).2.1))
  have hm := congrArg List.length
    (filterMap_map_some (fun u : User => u.MailNickname) us (fun u hu => (hc u hu).2.2))
  simp only [List.length_map] at ho hu hm
  rw [hread, hcalls]
  refine ⟨rfl, rfl, rfl, ?_, ho.trans hlen, hu.trans hlen, hm.trans hlen, ?_⟩
  · simpa [ResourceData.written, ResourceData.SetUsers] using hlen
  · simp [ResourceData.written, ResourceData.SetId, ResourceData.SetObjectIds,
      ResourceData.SetUserPrincipalNames, ResourceData.SetMailNicknames,
      ResourceData.SetUsers]

/-- Witness of C1, amended: two known object ids. -/
theorem read_all_found_witness :
    (dataSourceUsersRead sampleClient (request .objectId
      ["00000000-0000-0000-0000-000000000002",
        "00000000-0000-0000-0000-000000000001"] false)).outcome = .ok ∧
    (dataSourceUsersRead sampleClient (request .objectId
      ["00000000-0000-0000-0000-000000000002",
        "00000000-0000-0000-0000-000000000001"] false)).data.users =
      [userMap bob, userMap alice] :=
  have h := read_all_found sampleClient
    (request .objectId ["00000000-0000-0000-0000-000000000002",
      "00000000-0000-0000-0000-000000000001"] false)
    .objectId ["00000000-0000-0000-0000-000000000002",
      "00000000-0000-0000-0000-000000000001"] [bob, alice]
    (by decide) ⟨rfl, rfl⟩ rfl (by decide) (by decide)
  ⟨h.1, h.2.2.1⟩

/-- C5. On every read that returns `nil`, the identifier set is `users#`
followed by the URL-safe base64 text of the SHA-1 digest of the principal names
of the resolved records joined with `-`, in resolved order; a second successful
read whose resolved records carry the same sequence of principal names sets the
same identifier; and for the names `a@x.com`, `b@x.com` the identifier is
`users#8lCZr7AKElmKEwX58ATW-TY_-1o=`, the encoding of
`sha1("a@x.com-b@x.com")`. -/
theorem identifier_of_resolved_names (client : UsersClient) (d : ResourceData)
    (hok : (dataSourceUsersRead client d).outcome = .ok) :
    ∃ (users : List User) (upns : List String),
      (lookupUsers client d).exit = .done users ∧
      users.map (fun u => u.UserPrincipalName) = upns.map some ∧
      (dataSourceUsersRead client d).data.Id =
        "users#" ++
          base64URLEncodeToString (sha1 (stringBytes (String.intercalate "-" upns))) ∧
      SinkWrite.SetId (dataSourceUsersRead client d).data.Id ∈
        (dataSourceUsersRead client d).data.writes ∧
      (∀ (client2 : UsersClient) (d2 : ResourceData) (users2 : List User),
        (dataSourceUsersRead client2 d2).outcome = .ok →
        (lookupUsers client2 d2).exit = .done users2 →
        users2.map (fun u => u.UserPrincipalName) =
          users.map (fun u => u.UserPrincipalName) →
        (dataSourceUsersRead client2 d2).data.Id = (dataSourceUsersRead client d).data.Id) ∧
      (upns = ["a@x.com", "b@x.com"] →
        (dataSourceUsersRead client d).data.Id = "users#8lCZr7AKElmKEwX58ATW-TY_-1o=") := by
  obtain ⟨users, hexit, _, hc, hread⟩ := read_ok_inv client d hok
  have hid : (dataSourceUsersRead client d).data.Id =
      usersId (users.filterMap (fun u => u.UserPrincipalName)) := by
    rw [hread]; rfl
  refine ⟨users, users.filterMap (fun u => u.UserPrincipalName), hexit, ?_, ?_, ?_, ?_, ?_⟩
  · exact (filterMap_map_some _ users (fun u hu => (hc u hu).2.1)).symm
  · rw [hid]; rfl
  · rw [hread]
    simp [ResourceData.written, ResourceData.SetId, ResourceData.SetObjectIds,
      ResourceData.SetUserPrincipalNames, ResourceData.SetMailNicknames,
      ResourceData.SetUsers]
  · intro client2 d2 users2 hok2 hexit2 hsame
    obtain ⟨us2, hexit2b, _, _, hread2⟩ := read_ok_inv client2 d2 hok2
    rw [hexit2] at hexit2b
    simp only [LoopExit.done.injEq] at hexit2b
    subst hexit2b
    have hid2 : (dataSourceUsersRead client2 d2).data.Id =
        usersId (users2.filterMap (fun u => u.UserPrincipalName)) := by
      rw [hread2]; rfl
    have hfm : ∀ l : List User, l.filterMap (fun u => u.UserPrincipalName) =
        (l.map (fun u => u.UserPrincipalName)).filterMap id := by
      intro l; rw [List.filterMap_map]; rfl
    rw [hid, hid2, hfm users2, hfm users, hsame]
  · intro hupns
    rw [hid, hupns]
    exact usersId_example

/-- Witness of C5: the two principal names of the sample directory. -/
theorem identifier_of_resolved_names_witness :
    ∃ (users : List User) (upns : List String),
      (lookupUsers sampleClient
        (request .userPrincipalName ["a@x.com", "b@x.com"] false)).exit = .done users ∧
      users.map (fun u => u.UserPrincipalName) = upns.map some ∧
      (dataSourceUsersRead sampleClient
        (request .userPrincipalName ["a@x.com", "b@x.com"] false)).data.Id =
        "users#" ++
          base64URLEncodeToString (sha1 (stringBytes (String.intercalate "-" upns))) :=
  have ⟨users, upns, h1, h2, h3, _⟩ := identifier_of_resolved_names sampleClient
    (request .userPrincipalName ["a@x.com", "b@x.com"] false) (by decide)
  ⟨users, upns, h1, h2, h3⟩

/-- C8 at a failing input. The directory returns `guest`, which has object id
and principal name and no mail nickname, and then `ghost`, which has no object
id: the read ends in the nil dereference of line 192 on `guest` and never
returns the error of line 186 for `ghost`. -/
theorem missing_field_behind_nil_mailNickname :
    (lookupUsers sparseClient
      (request .userPrincipalName ["guest@x.com", "ghost@x.com"] false)).exit =
        .done [guest, ghost] ∧
    ghost.ObjectID = none ∧
    (dataSourceUsersRead sparseClient
      (request .userPrincipalName ["guest@x.com", "ghost@x.com"] false)).outcome =
        .nilDereference ∧
    (dataSourceUsersRead sparseClient
      (request .userPrincipalName ["guest@x.com", "ghost@x.com"] false)).outcome ≠
        .error (.nilObjectIdOrUpn ghost) := by
  decide

/-- What the guard of line 185 does achieve: behind records that are complete,
a resolved record without object id or principal name makes the read return the
error of line 186 with the resource data left as it was. -/
theorem missing_field_error_behind_complete (client : UsersClient) (d : ResourceData)
    (pre : List User) (u : User) (post : List User)
    (hexit : (lookupUsers client d).exit = .done (pre ++ u :: post))
    (hpre : ∀ x ∈ pre, x.Complete)
    (hu : u.ObjectID = none ∨ u.UserPrincipalName = none) :
    (dataSourceUsersRead client d).outcome = .error (.nilObjectIdOrUpn u) ∧
    (dataSourceUsersRead client d).data = d := by
  have hread := read_of_done client d (pre ++ u :: post) hexit (by simp)
  rw [projectLoop_missing_field u post hu pre _ hpre] at hread
  rw [hread]
  exact ⟨rfl, rfl⟩

/-- C6 as stated fails: in a directory that matches principal names without
regard to case, the list `A@x.com`, `a@x.com` and its reordering `a@x.com`,
`A@x.com` are different lists, all four lookups succeed, both reads return
`nil`, and both set the same identifier. -/
theorem reordering_keeps_identifier :
    ["A@x.com", "a@x.com"].Perm ["a@x.com", "A@x.com"] ∧
    ["A@x.com", "a@x.com"] ≠ ["a@x.com", "A@x.com"] ∧
    (dataSourceUsersRead caselessClient
      (request .userPrincipalName ["A@x.com", "a@x.com"] false)).outcome = .ok ∧
    (dataSourceUsersRead caselessClient
      (request .userPrincipalName ["a@x.com", "A@x.com"] false)).outcome = .ok ∧
    (dataSourceUsersRead caselessClient
      (request .userPrincipalName ["A@x.com", "a@x.com"] false)).data.Id =
    (dataSourceUsersRead caselessClient
      (request .userPrincipalName ["a@x.com", "A@x.com"] false)).data.Id := by
  refine ⟨List.Perm.swap _ _ _, by decide, by decide, by decide, rfl⟩

/-- C6, amended. Two reads that return `nil`, such as the read of a list and
the read of a reordering of it, set different identifiers exactly when the SHA-1
digests of their resolved principal names joined with `-` differ. -/
theorem identifier_differs_iff_digest_differs (client : UsersClient) (d1 d2 : ResourceData)
    (hok1 : (dataSourceUsersRead client d1).outcome = .ok)
    (hok2 : (dataSourceUsersRead client d2).outcome = .ok) :
    (dataSourceUsersRead client d1).data.Id ≠ (dataSourceUsersRead client d2).data.Id ↔
      sha1 (stringBytes (String.intercalate "-"
        (dataSourceUsersRead client d1).data.user_principal_names)) ≠
      sha1 (stringBytes (String.intercalate "-"
        (dataSourceUsersRead client d2).data.user_principal_names)) := by
  obtain ⟨us1, _, _, _, hread1⟩ := read_ok_inv client d1 hok1
  obtain ⟨us2, _, _, _, hread2⟩ := read_ok_inv client d2 hok2
  have h1 : (dataSourceUsersRead client d1).data.Id =
      usersId (dataSourceUsersRead client d1).data.user_principal_names := by
    rw [hread1]; rfl
  have h2 : (dataSourceUsersRead client d2).data.Id =
      usersId (dataSourceUsersRead client d2).data.user_principal_names := by
    rw [hread2]; rfl
  rw [h1, h2]
  exact not_congr (usersId_eq_iff _ _)

/-- The digests of `a@x.com-b@x.com` and of `b@x.com-a@x.com` differ. -/
theorem sha1_example_ne :
    sha1 (stringBytes (String.intercalate "-" ["a@x.com", "b@x.com"])) ≠
      sha1 (stringBytes (String.intercalate "-" ["b@x.com", "a@x.com"])) := by
  decide!

/-- Witness of C6, amended: the two principal names of the sample directory,
read in both orders, give different identifiers. -/
theorem identifier_differs_iff_digest_differs_witness :
    (dataSourceUsersRead sampleClient
      (request .userPrincipalName ["a@x.com", "b@x.com"] false)).data.Id ≠
    (dataSourceUsersRead sampleClient
      (request .userPrincipalName ["b@x.com", "a@x.com"] false)).data.Id :=
  (identifier_differs_iff_digest_differs sampleClient
    (request .userPrincipalName ["a@x.com", "b@x.com"] false)
    (request .userPrincipalName ["b@x.com", "a@x.com"] false)
    (by decide) (by decide)).mpr sha1_example_ne

/-- C7 as stated fails: in a directory where two records share a mail
nickname, the read of the object id of the second returns `nil`, and the read of
the echoed `mail_nicknames` returns `nil` with a different `users` list. -/
theorem roundtrip_by_shared_nickname :
    (dataSourceUsersRead sharedNicknameClient
      (request .objectId ["00000000-0000-0000-0000-000000000003"] false)).outcome = .ok ∧
    (dataSourceUsersRead sharedNicknameClient
      (request .objectId ["00000000-0000-0000-0000-000000000003"] false)).data.users =
        [userMap carol] ∧
    (dataSourceUsersRead sharedNicknameClient
      (request .mailNickname
        (dataSourceUsersRead sharedNicknameClient
          (request .objectId
            ["00000000-0000-0000-0000-000000000003"] false)).data.mail_nicknames
        false)).outcome = .ok ∧
    (dataSourceUsersRead sharedNicknameClient
      (request .mailNickname
        (dataSourceUsersRead sharedNicknameClient
          (request .objectId
            ["00000000-0000-0000-0000-000000000003"] false)).data.mail_nicknames
        false)).data.users ≠
    (dataSourceUsersRead sharedNicknameClient
      (request .objectId ["00000000-0000-0000-0000-000000000003"] false)).data.users := by
  decide

/-- C7, amended. After a read that returns `nil`, when the directory returns
each resolved record under its own key of a kind, a second read of the same
directory without `ignore_missing`, given the echoed list of that kind and
nothing else, returns `nil` and writes the same `users` list. -/
theorem roundtrip_of_echoed_list (client : UsersClient) (d : ResourceData) (kind : IdKind)
    (users : List User)
    (hok : (dataSourceUsersRead client d).outcome = .ok)
    (hexit : (lookupUsers client d).exit = .done users)
    (hdir : ∀ u ∈ users, ∀ key, u.key kind = some key → client.lookup kind key = .found u) :
    (dataSourceUsersRead client
      (request kind ((dataSourceUsersRead client d).data.list kind) false)).outcome = .ok ∧
    (dataSourceUsersRead client
      (request kind ((dataSourceUsersRead client d).data.list kind) false)).data.users =
      (dataSourceUsersRead client d).data.users := by
  obtain ⟨us, hexit2, _, hc, hread⟩ := read_ok_inv client d hok
  rw [hexit] at hexit2
  simp only [LoopExit.done.injEq] at hexit2
  subst hexit2
  have hlist : (dataSourceUsersRead client d).data.list kind =
      users.filterMap (fun u => u.key kind) := by
    rw [hread]; exact written_list d users kind
  have husers : (dataSourceUsersRead client d).data.users = users.map userMap := by
    rw [hread]; rfl
  rw [hlist, husers,
    read_request_found client kind _ users (keys_found client kind users hc hdir) hc]
  exact ⟨rfl, rfl⟩

/-- Witness of C7, amended: the sample directory, read by principal name and
read again by the echoed mail nicknames. -/
theorem roundtrip_of_echoed_list_witness :
    (dataSourceUsersRead sampleClient
      (request .mailNickname
        ((dataSourceUsersRead sampleClient
          (request .userPrincipalName ["b@x.com", "a@x.com"] false)).data.list .mailNickname)
        false)).outcome = .ok ∧
    (dataSourceUsersRead sampleClient
      (request .mailNickname
        ((dataSourceUsersRead sampleClient
          (request .userPrincipalName ["b@x.com", "a@x.com"] false)).data.list .mailNickname)
        false)).data.users =
      (dataSourceUsersRead sampleClient
        (request .userPrincipalName ["b@x.com", "a@x.com"] false)).data.users :=
  roundtrip_of_echoed_list sampleClient
    (request .userPrincipalName ["b@x.com", "a@x.com"] false) .mailNickname [bob, alice]
    (by decide) (by decide)
    (by
      intro u hu key hkey
      simp only [List.mem_cons, List.mem_singleton, List.not_mem_nil, or_false] at hu
      rcases hu with rfl | rfl
      · have hk : key = "bob" := by
          simpa [User.key, bob, sampleUser] using hkey.symm
        subst hk
        decide
      · have hk : key = "alice" := by
          simpa [User.key, alice, sampleUser] using hkey.symm
        subst hk
        decide)

end Azuread
